import Mathlib

/-!
# Verification of the Website-Ripper crawl orchestration core

Shallow embedding, in Lean 4, of the crawl-orchestration core of the
Website-Ripper repository: the URL frontier (`src/util/ordered_queue.py`),
the persistent completed/queued URL caches and the frontier-insertion
operation (`src/scrape.py`), the download cache of the content fetcher
(`src/util/web/generic.py`), the navigation-retry recursion
(`src/util/selenium_util.py`), the rendition selector
(`src/iframe/vimeo.py`) and the unhandled-iframe logging logic
(`src/scrape.py`).

Python lists become Lean `List String`; the per-base-domain `shelve`
stores become functions `String → List String` updated pointwise; the
insertion-ordered Python `dict` backing `OrderedSet` becomes a
duplicate-free `List String` in insertion order.
-/

namespace WebsiteRipper

/-! ## URL defragmentation

`get_url_without_fragment` is imported by `src/scrape.py` from
`src.util.web.generic` but no definition of it exists anywhere in the
sources. -/

/-- Modelled from the spec: `get_url_without_fragment` is called by
`add_to_queue` in `src/scrape.py` but its definition is missing from the
sources.  The spec's glossary defines the defragmented URL as "a URL with
its `#fragment` suffix removed", so the model keeps everything strictly
before the first `#`. -/
def get_url_without_fragment (url : String) : String :=
  String.mk (url.data.takeWhile (fun c => c ≠ '#'))

/-! ## OrderedSet / OrderedSetQueue (`src/util/ordered_queue.py`)

`OrderedSet` extends `OrderedDict`: `add` inserts the element as a key
with value `None`.  Inserting a key that is already present leaves the
dict's key order unchanged (Python dict semantics), so the set is a
duplicate-free list in first-insertion order. -/

/-- `OrderedSet.add` (ordered_queue.py line 24-25): insert as dict key;
a key already present keeps its original position. -/
def OrderedSet.add (q : List String) (x : String) : List String :=
  if x ∈ q then q else q ++ [x]

/-- `OrderedSet.pop_first` (ordered_queue.py lines 8-10):
`popitem(last=False)` removes and returns the first key. -/
def OrderedSet.pop_first (q : List String) : Option (String × List String) :=
  match q with
  | [] => none
  | x :: xs => some (x, xs)

/-- `OrderedSet.pop_last` (ordered_queue.py lines 12-14): the source also
calls `popitem(last=False)`, so it removes and returns the FIRST key,
exactly like `pop_first`. -/
def OrderedSet.pop_last (q : List String) : Option (String × List String) :=
  match q with
  | [] => none
  | x :: xs => some (x, xs)

inductive QueueType where
  | FIFO
  | LIFO
  deriving DecidableEq, Repr

/-- `OrderedSetQueue._get` (ordered_queue.py lines 76-80): FIFO pops via
`pop_first`, LIFO via `pop_last`. -/
def OrderedSetQueue.get (qt : QueueType) (q : List String) :
    Option (String × List String) :=
  match qt with
  | QueueType.FIFO => OrderedSet.pop_first q
  | QueueType.LIFO => OrderedSet.pop_last q

/-- `OrderedSetQueue.enqueue` = `put` = `OrderedSet.add`. -/
def OrderedSetQueue.enqueue (q : List String) (x : String) : List String :=
  OrderedSet.add q x

/-- `OrderedSetQueue.enqueue_list` (ordered_queue.py lines 91-93). -/
def OrderedSetQueue.enqueue_list (q : List String) (xs : List String) :
    List String :=
  xs.foldl OrderedSetQueue.enqueue q

/-- Draining a FIFO queue: repeatedly `dequeue` until empty and collect
the values in order.  Since `_get` in FIFO mode pops the head, the drain
of a queue is the queue's list itself. -/
def OrderedSetQueue.drainFIFO (q : List String) : List String := q

/-! ## Persistent cache layer and frontier insertion (`src/scrape.py`)

The two `shelve` stores (`cache/completed_urls.db`, `cache/queued_urls.db`)
map a base domain to a list of URLs, with `.get(base, default=[])`
semantics.  They are modelled as total functions `String → List String`
whose default value is `[]`, updated pointwise. -/

/-- Pointwise update of a per-base-domain store. -/
def storePut (cache : String → List String) (base : String)
    (lst : List String) : String → List String :=
  fun b => if b = base then lst else cache b

/-- Crawl state: the two persistent per-base stores plus the in-memory
frontier queue (one `OrderedSetQueue` per crawl). -/
structure CrawlState where
  completedCache : String → List String
  queuedCache : String → List String
  queue : List String

/-- `add_completed_url_to_cache` (scrape.py lines 132-139): append `url`
to the base's completed list if absent. -/
def add_completed_url_to_cache (url base : String) (st : CrawlState) :
    CrawlState :=
  let lst := st.completedCache base
  let lst' := if url ∈ lst then lst else lst ++ [url]
  { st with completedCache := storePut st.completedCache base lst' }

/-- `is_url_completed` (scrape.py lines 142-146). -/
def is_url_completed (url base : String) (st : CrawlState) : Bool :=
  url ∈ st.completedCache base

/-- The body of `add_queued` inside `add_to_queue` (scrape.py lines
190-196): append the defragmented URL to the base's queued list if
absent. -/
def add_queued_list (url : String) (lst : List String) : List String :=
  if url ∈ lst then lst else lst ++ [url]

/-- `add_to_queue` (scrape.py lines 182-196): defragment, return early if
completed, otherwise enqueue into the frontier and record in the queued
store. -/
def add_to_queue (url base : String) (st : CrawlState) : CrawlState :=
  let defragmented_url := get_url_without_fragment url
  if is_url_completed defragmented_url base st then st
  else
    { st with
      queue := OrderedSetQueue.enqueue st.queue defragmented_url
      queuedCache := storePut st.queuedCache base
        (add_queued_list defragmented_url (st.queuedCache base)) }

/-- `remove_queued_url` (scrape.py lines 199-206): remove the first
occurrence of `url` from the base's queued list if present. -/
def remove_queued_url (url base : String) (st : CrawlState) : CrawlState :=
  let lst := st.queuedCache base
  let lst' := if url ∈ lst then lst.erase url else lst
  { st with queuedCache := storePut st.queuedCache base lst' }

/-- `get_queued_urls` (scrape.py lines 209-213). -/
def get_queued_urls (base : String) (st : CrawlState) : List String :=
  st.queuedCache base

/-- `add_list_to_queue` (scrape.py lines 177-179). -/
def add_list_to_queue (urls : List String) (base : String)
    (st : CrawlState) : CrawlState :=
  urls.foldl (fun s u => add_to_queue u base s) st

/-! ## The crawl loop as a transition system (`process_queue`, scrape.py
lines 161-174, and `scrape_page`, lines 246-360)

One iteration of `process_queue` dequeues a URL, removes it from the
queued store, and runs `scrape_page`, which (in order) stores the page,
marks the URL completed, and only then pushes each discovered link
through `add_to_queue`.  The crawl-loop operations are modelled as an
inductive set of state transitions; `finishedPage` is the exact operation
order of one successful loop iteration. -/

/-- One successful `process_queue` iteration for the dequeued URL `u`
with discovered links `links`: `remove_queued_url` before processing,
then `add_completed_url_to_cache`, then `add_to_queue` on every
discovered link (the order of scrape.py lines 166-170 and 350-360). -/
def finishedPage (u : String) (links : List String) (base : String)
    (st : CrawlState) : CrawlState :=
  let st1 := remove_queued_url u base st
  let st2 := add_completed_url_to_cache u base st1
  links.foldl (fun s l => add_to_queue l base s) st2

/-- The crawl-loop operations that touch the completed/queued stores. -/
inductive CrawlOp where
  /-- a call to `add_to_queue` (frontier insertion for a discovered or
  seeded URL) -/
  | add (u : String)
  /-- one successfully finished page: dequeue+`remove_queued_url`,
  `scrape_page` succeeding, `add_completed_url_to_cache`, then the
  discovered links -/
  | page (u : String) (links : List String)
  /-- the resume step at the top of `process_queue` (lines 162-163):
  re-enqueue the persisted queued URLs into the frontier -/
  | resume
  deriving Repr

/-- Apply one crawl-loop operation (all within one crawl, so one fixed
base domain). -/
def applyCrawlOp (base : String) (st : CrawlState) : CrawlOp → CrawlState
  | CrawlOp.add u => add_to_queue u base st
  | CrawlOp.page u links => finishedPage u links base st
  | CrawlOp.resume =>
      { st with
        queue := OrderedSetQueue.enqueue_list st.queue
          (get_queued_urls base st) }

/-- Apply a whole interleaving of crawl-loop operations. -/
def applyCrawlOps (base : String) (ops : List CrawlOp) (st : CrawlState) :
    CrawlState :=
  ops.foldl (applyCrawlOp base) st

/-- The resume-consistency invariant: for every base domain, the
completed store and the queued store are disjoint and the queued store is
duplicate-free. -/
def CrawlInv (st : CrawlState) : Prop :=
  ∀ b : String,
    (∀ x ∈ st.completedCache b, x ∉ st.queuedCache b) ∧
    (st.queuedCache b).Nodup

/-- The state of a fresh crawl: empty stores, empty frontier. -/
def initialCrawlState : CrawlState :=
  { completedCache := fun _ => []
    queuedCache := fun _ => []
    queue := [] }

/-! ## Skip-substring gating during link discovery (`src/scrape.py` lines
313-348 and `src/util/generic.py` lines 70-78) -/

/-- Python's substring test `needle in haystack`: the needle's character
list is a contiguous infix of the haystack's. -/
def str_contains (needle haystack : String) : Bool :=
  decide (needle.data <:+: haystack.data)

/-- `any_list_in_str` (util/generic.py lines 70-78): `False` when the
list or the string is empty, else `True` iff some list element is a
substring of `s`. -/
def any_list_in_str (s : String) (lst : List String) : Bool :=
  if lst.isEmpty || s.isEmpty then false
  else lst.any (fun elem => str_contains elem s)

/-- The link-classification fold of `scrape_page` (lines 332-337),
restricted to the in-domain HTML hrefs: each href is appended to
`relative_links` when fresh, and to `a_hrefs` when fresh AND no
configured skip substring occurs in it. -/
def link_discovery_step (skip : List String)
    (acc : List String × List String) (href : String) :
    List String × List String :=
  let relative_links :=
    if href ∈ acc.1 then acc.1 else acc.1 ++ [href]
  let a_hrefs :=
    if href ∉ acc.2 ∧ ¬ any_list_in_str href skip then acc.2 ++ [href]
    else acc.2
  (relative_links, a_hrefs)

/-- Link discovery over a page's in-domain HTML hrefs: returns
`(relative_links, a_hrefs)`; every member of `relative_links` gets
URL-substitution jobs for the rewrite step, every member of `a_hrefs` is
pushed through `add_to_queue` (lines 339-348 and 355-360). -/
def link_discovery (skip : List String) (hrefs : List String) :
    List String × List String :=
  hrefs.foldl (link_discovery_step skip) ([], [])

/-- A `ScrapeJob` of the URL-substitution kind (scrape_classes.py):
`file_path` is the local file the rewrite should point at, `url` the
original text to replace. -/
structure URLScrapeJob where
  file_path : String
  url : String
  deriving DecidableEq, Repr

/-- The substitution-job loop of `scrape_page` (lines 339-348): every
`relative_link` unconditionally yields two URL-substitution jobs, one for
the absolute link and one for its site-relative sub-directory form.
`filenameFor` and `subDirFor` stand for the path computations
(`join_path`/`get_sub_directory_path`), which do not affect which links
get jobs. -/
def relative_link_jobs (filenameFor subDirFor : String → String)
    (relative_links : List String) : List URLScrapeJob :=
  relative_links.flatMap (fun l =>
    [{ file_path := filenameFor l, url := l },
     { file_path := filenameFor l, url := subDirFor l }])

/-! ## Unhandled-iframe logging (`src/scrape.py` lines 238-243 and
269-284) -/

/-- `IFrameIgnore` (config.py lines 56-59): `obj_type` and `identifier`
strings; Python truthiness of `obj_type` is emptiness of the string. -/
structure IFrameIgnore where
  identifier : String
  obj_type : String
  deriving DecidableEq, Repr

/-- `is_ignored_iframe` (scrape.py lines 238-243): the loop returns
`False` at the first entry whose `obj_type` is truthy, with `identifier`
truthy and `identifier` a substring of the ENTRY's identifier
(`identifier in iframe_ignore.identifier`); if no entry matches it
returns `True`. -/
def is_ignored_iframe (iframe_ignore_lst : List IFrameIgnore)
    (identifier : String) : Bool :=
  if iframe_ignore_lst.any (fun e =>
      !e.obj_type.isEmpty && !identifier.isEmpty &&
        str_contains identifier e.identifier)
  then false
  else true

/-- The iframe failure-log state: the module-global `NOT_HANDLED_IFRAMES`
list and the lines appended to `cache/failed_iframes.txt`. -/
structure IFrameLogState where
  not_handled : List String
  failed_log : List String
  deriving DecidableEq, Repr

/-- The unhandled-iframe branch of `scrape_page` (lines 273-284) for one
iframe with identifier `identifier` and markup `outer_html`: log iff the
identifier is truthy, `is_ignored_iframe` is false, and the identifier is
fresh; on logging, remember the identifier and append the markup. -/
def iframe_log_step (iframe_ignore_lst : List IFrameIgnore)
    (st : IFrameLogState) (identifier outer_html : String) :
    IFrameLogState :=
  let ignored_iframe := is_ignored_iframe iframe_ignore_lst identifier
  if ¬ identifier.isEmpty ∧ ignored_iframe = false ∧
      identifier ∉ st.not_handled then
    { not_handled := st.not_handled ++ [identifier]
      failed_log := st.failed_log ++ [outer_html] }
  else st

/-! ## Rendition selection (`src/iframe/vimeo.py`) -/

/-- `VimeoIFrameRequestFilesDashCDNStream` (vimeo.py lines 33-44). -/
structure DashCDNStream where
  identifier : Nat
  quality : String
  fps : Nat
  deriving DecidableEq, Repr

/-- `get_quality_number` (vimeo.py lines 25-27 and 39-41):
`int(first_or_none(filter(str.isdigit, self.quality)))` — the FIRST
digit character of the quality label, converted to an integer (`none`
models the `TypeError` that `int(None)` raises when the label has no
digit). -/
def get_quality_number (quality : String) : Option Nat :=
  (quality.data.filter Char.isDigit).head?.map
    (fun c => c.toNat - ('0' : Char).toNat)

/-- The sort key actually used: on the claim's inputs every label has a
digit, so `getD 0` is never the exception case. -/
def quality_sort_key (s : DashCDNStream) : Nat :=
  (get_quality_number s.quality).getD 0

/-- `best_impl` (vimeo.py lines 73-76): stable sort by
`get_quality_number` descending (Python's `sorted(..., reverse=True)` is
the stable descending sort: larger keys first, ties in original order),
then the first element or `None`.  `List.insertionSort` with the total
preorder `key b ≤ key a` computes exactly that stable descending sort. -/
def best_impl (lst : List DashCDNStream) : Option DashCDNStream :=
  (lst.insertionSort
    (fun a b => quality_sort_key b ≤ quality_sort_key a)).head?

/-! ## Navigation retry recursion (`src/util/selenium_util.py` lines
47-57)

```
def driver_go_and_wait(driver, url, scroll_pause_time, fail=0):
    if fail >= 5: log(..., log_type=LogType.ERROR)   # fatal exit
    driver.get(url); wait_page_load(driver)
    if not is_url_exact(driver.current_url, url):
        driver_go_and_wait(driver, url, fail + 1)    # 3rd positional!
    scroll_to_bottom(...)
```
The recursive call passes `fail + 1` in the `scroll_pause_time` position
and leaves `fail` at its default `0`. -/

/-- The argument tuple of a `driver_go_and_wait` activation. -/
structure GoArgs where
  url : String
  scroll_pause_time : Nat
  fail : Nat
  deriving DecidableEq, Repr

/-- The argument transformation of the recursive call
`driver_go_and_wait(driver, url, fail + 1)`: `scroll_pause_time` receives
the old `fail + 1`, and `fail` takes its default value `0`. -/
def driver_go_next (a : GoArgs) : GoArgs :=
  { url := a.url, scroll_pause_time := a.fail + 1, fail := 0 }

/-- Fuel-indexed unfolding of `driver_go_and_wait` against a browser
whose resolved URL matches the requested URL on attempt `k` iff
`resolves k`.  `some true` = fatal exit at the retry bound, `some false`
= normal termination (URL matched), `none` = the recursion is still
running after `fuel` activations. -/
def driver_go_and_wait_fuel (resolves : Nat → Bool) :
    Nat → Nat → GoArgs → Option Bool
  | 0, _, _ => none
  | fuel + 1, k, a =>
      if a.fail ≥ 5 then some true
      else if resolves k then some false
      else driver_go_and_wait_fuel resolves fuel (k + 1) (driver_go_next a)

/-! ## Download cache of the content fetcher (`src/util/web/generic.py`
lines 500-605 and 642-683)

The network transport (`urllib.request.urlopen` plus its redirect
handling) is a collaborator: it is modelled as a function from the
requested URL to `none` (the exception branch of `download_file_impl`) or
to the final post-redirect URL together with the stripped `Content-Type`
(`get_content_type_from_headers` cuts the header at `;` before
`download_file` consumes it, so the model carries the already-stripped
type).  Each `urlopen` attempt increments `net_calls`. -/

/-- The transport's answer for one URL: final (post-redirect) URL and the
stripped `Content-Type` header (`none` when the header is absent). -/
structure TransportResp where
  final_url : String
  content_type : Option String
  deriving DecidableEq, Repr

/-- `DownloadedFileResult` (generic.py lines 63-66). -/
inductive DownloadedFileResult where
  | SUCCESS
  | FAIL
  | SKIPPED
  deriving DecidableEq, Repr

/-- `DownloadedFile` (generic.py lines 69-77); `content_type` stands for
the captured response headers. -/
structure DownloadedFile where
  filename : String
  url : String
  content_type : Option String
  result : DownloadedFileResult
  deriving DecidableEq, Repr

/-- The fetcher state: the `cache/website_links.db` shelve (URL key →
entry) plus an instrumentation counter of `urlopen` calls. -/
structure DlState where
  cache : String → Option DownloadedFile
  net_calls : Nat

/-- `add_to_download_cache` (generic.py lines 355-365): store one entry
under every given key. -/
def cache_put (c : String → Option DownloadedFile) (keys : List String)
    (df : DownloadedFile) : String → Option DownloadedFile :=
  fun k => if k ∈ keys then some df else c k

/-- `is_blank` (util/generic.py lines 123-124): empty or
whitespace-only. -/
def is_blank (s : String) : Bool :=
  s.data.all (fun c => c.isWhitespace)

/-- `ignorable_content_type` (generic.py lines 330-343): empty ignore
list → not ignorable; blank/absent content type → ignorable (the
`attempt_download_on_fail` default); otherwise membership of the type in
the ignore list.  The `split(';')` in the source is a no-op here because
the modelled `content_type` is already the stripped output of
`get_content_type_from_headers`. -/
def ignorable_content_type (ignored : List String) (ct : Option String) :
    Bool :=
  if ignored.isEmpty then false
  else
    match ct with
    | none => true
    | some c => if is_blank c then true else decide (c ∈ ignored)

/-- Outcome of `download_file_impl` (generic.py lines 642-683): `cached`
is the early `return download_cache[new_url]` (line 655), `fetched`
carries `(url, old_url, headers)` as returned at line 683. -/
inductive ImplResult where
  | cached (df : DownloadedFile)
  | fetched (url old_url : String) (content_type : Option String)
  deriving DecidableEq, Repr

/-- `download_file_impl` (generic.py lines 642-683): one `urlopen`
attempt (counted), `None` on exception; on success, a cache hit under the
final URL short-circuits, otherwise the final URL, the original URL when
a redirect happened (else `''`), and the headers are returned. -/
def download_file_impl (transport : String → Option TransportResp)
    (url : String) (st : DlState) : Option ImplResult × DlState :=
  let st' : DlState := { st with net_calls := st.net_calls + 1 }
  match transport url with
  | none => (none, st')
  | some resp =>
      let new_url := resp.final_url
      match st'.cache new_url with
      | some df => (some (ImplResult.cached df), st')
      | none =>
          if url ≠ new_url then
            (some (ImplResult.fetched new_url url resp.content_type), st')
          else
            (some (ImplResult.fetched url "" resp.content_type), st')

/-- `download_file` (generic.py lines 500-605) with `cache=True`:
1. return the cached entry for the requested URL verbatim (line 507);
2. otherwise run `download_file_impl`;
3. `None` → a FAIL entry cached under the requested URL (line 516);
4. the impl's cache hit is returned as-is (line 520);
5. an empty final URL → a FAIL entry cached under the requested URL
   (line 523);
6. an ignorable content type → a SKIPPED entry cached under the FINAL
   URL only (line 530);
7. otherwise a SUCCESS entry cached under the final URL and `old_url`
   (line 601).  `name_of` abstracts the filename-resolution steps
   (lines 533-600: Content-Disposition, extension inference,
   `group_by`, `move_file`), which touch the filesystem and do not
   affect the cache keys or the result status. -/
def download_file (transport : String → Option TransportResp)
    (name_of : String → String) (ignored : List String) (url : String)
    (st : DlState) : DownloadedFile × DlState :=
  match st.cache url with
  | some df => (df, st)
  | none =>
      match download_file_impl transport url st with
      | (none, st1) =>
          let df : DownloadedFile :=
            { filename := "", url := url, content_type := none
              result := DownloadedFileResult.FAIL }
          (df, { st1 with cache := cache_put st1.cache [url] df })
      | (some (ImplResult.cached df), st1) => (df, st1)
      | (some (ImplResult.fetched u old_url ct), st1) =>
          if u.isEmpty then
            let df : DownloadedFile :=
              { filename := "", url := url, content_type := none
                result := DownloadedFileResult.FAIL }
            (df, { st1 with cache := cache_put st1.cache [url] df })
          else if ignorable_content_type ignored ct then
            let df : DownloadedFile :=
              { filename := "", url := u, content_type := none
                result := DownloadedFileResult.SKIPPED }
            (df, { st1 with cache := cache_put st1.cache [u] df })
          else
            let df : DownloadedFile :=
              { filename := name_of u, url := u, content_type := ct
                result := DownloadedFileResult.SUCCESS }
            (df, { st1 with cache := cache_put st1.cache [u, old_url] df })

/-- The empty fetcher state: empty download cache, no transport calls. -/
def dlInit : DlState := { cache := fun _ => none, net_calls := 0 }

/-- A concrete transport: requesting `"u"` redirects to the final URL
`"f"` and serves `text/html`; every other URL fails. -/
def tHtmlRedirect : String → Option TransportResp :=
  fun u =>
    if u = "u" then some { final_url := "f", content_type := some "text/html" }
    else none

/-! ## Helper lemmas -/

theorem OrderedSet.mem_add (q : List String) (x y : String) :
    y ∈ OrderedSet.add q x ↔ y ∈ q ∨ y = x := by
  by_cases h : x ∈ q
  · simp only [OrderedSet.add, if_pos h]
    exact ⟨fun hy => Or.inl hy, fun hy => hy.elim id (fun e => e ▸ h)⟩
  · simp [OrderedSet.add, if_neg h]

theorem OrderedSet.nodup_add {q : List String} (x : String)
    (h : q.Nodup) : (OrderedSet.add q x).Nodup := by
  by_cases hx : x ∈ q
  · simpa [OrderedSet.add, if_pos hx] using h
  · simp [OrderedSet.add, if_neg hx, List.nodup_append, h, hx]

theorem OrderedSetQueue.mem_enqueue_list (xs : List String) :
    ∀ (q : List String) (y : String),
      y ∈ OrderedSetQueue.enqueue_list q xs ↔ y ∈ q ∨ y ∈ xs := by
  induction xs with
  | nil => intro q y; simp [OrderedSetQueue.enqueue_list]
  | cons x xs ih =>
      intro q y
      have hstep : OrderedSetQueue.enqueue_list q (x :: xs)
          = OrderedSetQueue.enqueue_list (OrderedSetQueue.enqueue q x) xs :=
        rfl
      rw [hstep, ih]
      simp only [OrderedSetQueue.enqueue, OrderedSet.mem_add,
        List.mem_cons]
      tauto

theorem OrderedSetQueue.nodup_enqueue_list (xs : List String) :
    ∀ {q : List String}, q.Nodup →
      (OrderedSetQueue.enqueue_list q xs).Nodup := by
  induction xs with
  | nil => intro q h; exact h
  | cons x xs ih =>
      intro q h
      exact ih (OrderedSet.nodup_add x h)

theorem OrderedSetQueue.toFinset_enqueue_list (xs : List String) :
    (OrderedSetQueue.enqueue_list [] xs).toFinset = xs.toFinset := by
  ext y
  simp [List.mem_toFinset, OrderedSetQueue.mem_enqueue_list]

theorem mem_add_queued_list (u : String) (lst : List String) :
    u ∈ add_queued_list u lst := by
  by_cases h : u ∈ lst <;> simp [add_queued_list, h]

theorem mem_add_queued_list_iff (u x : String) (lst : List String) :
    x ∈ add_queued_list u lst ↔ x ∈ lst ∨ x = u := by
  by_cases h : u ∈ lst
  · simp only [add_queued_list, if_pos h]
    exact ⟨fun hx => Or.inl hx, fun hx => hx.elim id (fun e => e ▸ h)⟩
  · simp [add_queued_list, if_neg h]

theorem nodup_add_queued_list (u : String) {lst : List String}
    (h : lst.Nodup) : (add_queued_list u lst).Nodup := by
  by_cases hu : u ∈ lst
  · simpa [add_queued_list, if_pos hu] using h
  · simp [add_queued_list, if_neg hu, List.nodup_append, h, hu]

theorem add_queued_list_of_mem {u : String} {lst : List String}
    (h : u ∈ lst) : add_queued_list u lst = lst := by
  simp [add_queued_list, if_pos h]

theorem add_to_queue_of_completed {u b : String} {st : CrawlState}
    (hc : get_url_without_fragment u ∈ st.completedCache b) :
    add_to_queue u b st = st := by
  simp [add_to_queue, is_url_completed, hc]

theorem add_to_queue_of_not_completed {u b : String} {st : CrawlState}
    (hc : get_url_without_fragment u ∉ st.completedCache b) :
    add_to_queue u b st =
      { st with
        queue := OrderedSetQueue.enqueue st.queue
          (get_url_without_fragment u)
        queuedCache := storePut st.queuedCache b
          (add_queued_list (get_url_without_fragment u)
            (st.queuedCache b)) } := by
  simp [add_to_queue, is_url_completed, hc]

/-! ## Claims -/

/-- C1: `add_to_queue(queue, u, b)` first strips `u`'s fragment; if the
defragmented URL is already in the completed-URL cache for `b` it returns
without enqueuing and without modifying the queued-URL cache; otherwise
it enqueues the defragmented URL into the frontier and records it in the
persisted queued-URL list for `b` (appending it when absent), leaving the
completed cache untouched. -/
theorem add_to_queue_spec (st : CrawlState) (u b : String) :
    (get_url_without_fragment u ∈ st.completedCache b →
      add_to_queue u b st = st) ∧
    (get_url_without_fragment u ∉ st.completedCache b →
      (add_to_queue u b st).queue
          = OrderedSetQueue.enqueue st.queue (get_url_without_fragment u) ∧
      (add_to_queue u b st).queuedCache b
          = add_queued_list (get_url_without_fragment u)
              (st.queuedCache b) ∧
      get_url_without_fragment u ∈ (add_to_queue u b st).queuedCache b ∧
      (add_to_queue u b st).completedCache = st.completedCache) := by
  constructor
  · exact fun h => add_to_queue_of_completed h
  · intro h
    rw [add_to_queue_of_not_completed h]
    refine ⟨rfl, ?_, ?_, rfl⟩
    · simp [storePut]
    · simp only [storePut, if_pos rfl]
      exact mem_add_queued_list _ _

/-- Witness for C1 at a concrete input: the fragment is stripped, the
completed check uses the defragmented URL, and both frontier and queued
store receive `"http://s/p"`. -/
theorem add_to_queue_spec_witness :
    get_url_without_fragment "http://s/p#sec" ∉
      (initialCrawlState.completedCache "s") ∧
    (add_to_queue "http://s/p#sec" "s" initialCrawlState).queue
        = ["http://s/p"] ∧
    "http://s/p" ∈
      (add_to_queue "http://s/p#sec" "s" initialCrawlState).queuedCache
        "s" := by
  have h := (add_to_queue_spec initialCrawlState "http://s/p#sec" "s").2
    (by decide)
  refine ⟨by decide, ?_, ?_⟩
  · rw [h.1]; decide
  · exact h.2.2.1

/-- C3: enqueuing a value already present in an `OrderedSetQueue` is a
no-op (so the first-insertion position is preserved), the frontier is
always duplicate-free, and draining it yields exactly one value per
distinct enqueued value no matter how many duplicate enqueue calls
occurred. -/
theorem frontier_dedup_distinct (xs : List String) :
    (∀ (q : List String) (x : String), x ∈ q →
      OrderedSetQueue.enqueue q x = q) ∧
    (OrderedSetQueue.drainFIFO (OrderedSetQueue.enqueue_list [] xs)).Nodup ∧
    (OrderedSetQueue.drainFIFO
        (OrderedSetQueue.enqueue_list [] xs)).length
      = xs.toFinset.card := by
  refine ⟨fun q x hx => ?_, ?_, ?_⟩
  · simp [OrderedSetQueue.enqueue, OrderedSet.add, if_pos hx]
  · exact OrderedSetQueue.nodup_enqueue_list xs List.nodup_nil
  · have hnd := @OrderedSetQueue.nodup_enqueue_list xs [] List.nodup_nil
    calc (OrderedSetQueue.drainFIFO
          (OrderedSetQueue.enqueue_list [] xs)).length
        = (OrderedSetQueue.enqueue_list [] xs).toFinset.card :=
          (List.toFinset_card_of_nodup hnd).symm
      _ = xs.toFinset.card := by
          rw [OrderedSetQueue.toFinset_enqueue_list]

/-- Witness for C3: enqueuing the duplicate `"a"` is a no-op preserving
its first position, and `["a", "b", "a"]` drains to 2 distinct values. -/
theorem frontier_dedup_distinct_witness :
    OrderedSetQueue.enqueue ["a", "b"] "a" = ["a", "b"] ∧
    (OrderedSetQueue.drainFIFO
        (OrderedSetQueue.enqueue_list [] ["a", "b", "a"])).length = 2 := by
  refine ⟨(frontier_dedup_distinct ["a", "b", "a"]).1 ["a", "b"] "a"
    (by decide), ?_⟩
  rw [(frontier_dedup_distinct ["a", "b", "a"]).2.2]
  decide

/-- C9 (code bug): in LIFO mode `dequeue()` does NOT return the
most-recently-inserted entry: `OrderedSet.pop_last` calls
`popitem(last=False)` — the same call as `pop_first` — so a LIFO queue
holding `"a"` then `"b"` dequeues `"a"`, the earliest-inserted entry
(FIFO mode, by contrast, behaves as claimed). -/
theorem lifo_dequeue_returns_earliest :
    OrderedSetQueue.get QueueType.LIFO
        (OrderedSetQueue.enqueue (OrderedSetQueue.enqueue [] "a") "b")
      = some ("a", ["b"]) ∧
    OrderedSetQueue.get QueueType.FIFO
        (OrderedSetQueue.enqueue (OrderedSetQueue.enqueue [] "a") "b")
      = some ("a", ["b"]) ∧
    OrderedSet.pop_last = OrderedSet.pop_first :=
  ⟨by decide, by decide, rfl⟩

/-- C10: every operation of the queued-URL store preserves the
no-duplicates invariant: `add_to_queue` appends the defragmented URL only
when it is absent (an already-present URL leaves the list unchanged), and
`remove_queued_url` removes at most one occurrence. -/
theorem queued_store_no_duplicates (st : CrawlState) (u b b' : String)
    (h : (st.queuedCache b').Nodup) :
    ((add_to_queue u b st).queuedCache b').Nodup ∧
    ((remove_queued_url u b st).queuedCache b').Nodup ∧
    (∀ x : String, (st.queuedCache b').count x ≤
        ((remove_queued_url u b st).queuedCache b').count x + 1) ∧
    (get_url_without_fragment u ∈ st.queuedCache b →
      (add_to_queue u b st).queuedCache b = st.queuedCache b) := by
  refine ⟨?_, ?_, ?_, ?_⟩
  · by_cases hc : get_url_without_fragment u ∈ st.completedCache b
    · rw [add_to_queue_of_completed hc]; exact h
    · rw [add_to_queue_of_not_completed hc]
      by_cases hb : b' = b
      · subst hb
        simpa [storePut] using nodup_add_queued_list _ h
      · simpa [storePut, hb] using h
  · by_cases hb : b' = b
    · subst hb
      by_cases hm : u ∈ st.queuedCache b'
      · simpa [remove_queued_url, storePut, hm] using h.erase u
      · simpa [remove_queued_url, storePut, hm] using h
    · simpa [remove_queued_url, storePut, hb] using h
  · intro x
    by_cases hb : b' = b
    · subst hb
      by_cases hm : u ∈ st.queuedCache b'
      · simp only [remove_queued_url, storePut, if_pos rfl, hm, if_true,
          ite_true]
        by_cases hx : u = x
        · subst hx
          rw [List.count_erase_self]
          omega
        · rw [List.count_erase_of_ne (fun e => hx e.symm)]
          omega
      · simp [remove_queued_url, storePut, hm]
    · simp [remove_queued_url, storePut, hb]
  · intro hm
    by_cases hc : get_url_without_fragment u ∈ st.completedCache b
    · rw [add_to_queue_of_completed hc]
    · rw [add_to_queue_of_not_completed hc]
      simp [storePut, add_queued_list_of_mem hm]

/-- Witness for C10 at a concrete state: removing from `["x", "u"]`
removes one occurrence and keeps the list duplicate-free, and re-adding
the already-queued `"u"` leaves the list unchanged. -/
theorem queued_store_no_duplicates_witness :
    ((add_to_queue "u" "s"
        { initialCrawlState with
          queuedCache := storePut initialCrawlState.queuedCache "s"
            ["x", "u"] }).queuedCache "s").Nodup ∧
    (add_to_queue "u" "s"
        { initialCrawlState with
          queuedCache := storePut initialCrawlState.queuedCache "s"
            ["x", "u"] }).queuedCache "s" = ["x", "u"] := by
  have h := queued_store_no_duplicates
    { initialCrawlState with
      queuedCache := storePut initialCrawlState.queuedCache "s"
        ["x", "u"] } "u" "s" "s" (by decide)
  exact ⟨h.1, h.2.2.2 (by decide)⟩

/-- C5 (code bug): the navigation retry is NOT bounded.  The recursive
call `driver_go_and_wait(driver, url, fail + 1)` passes `fail + 1` in the
`scroll_pause_time` position, so `fail` keeps its default `0` at every
recursion depth, the `fail >= 5` fatal guard never fires, and against a
browser whose resolved URL never matches the recursion runs past every
finite bound (`none` = still running after `fuel` activations). -/
theorem driver_go_and_wait_unbounded (fuel k t : Nat) (u : String) :
    driver_go_and_wait_fuel (fun _ => false) fuel k
      { url := u, scroll_pause_time := t, fail := 0 } = none := by
  induction fuel generalizing k t with
  | zero => rfl
  | succ n ih =>
      simp only [driver_go_and_wait_fuel, driver_go_next]
      norm_num
      exact ih (k + 1) 1

/-- C6 (code bug): `get_quality_number` converts only the FIRST digit
character of the quality label (`"720p"` ↦ 7, `"1080p"` ↦ 1,
`"480p"` ↦ 4), so the descending sort of `best_impl` selects the
rendition labeled `"720p"`, not `"1080p"`; on the empty rendition list it
does return no match, as claimed. -/
theorem best_rendition_picks_first_digit :
    best_impl [⟨1, "720p", 30⟩, ⟨2, "1080p", 30⟩, ⟨3, "480p", 30⟩]
        = some ⟨1, "720p", 30⟩ ∧
    (best_impl [⟨1, "720p", 30⟩, ⟨2, "1080p", 30⟩, ⟨3, "480p", 30⟩]).map
        DashCDNStream.quality ≠ some "1080p" ∧
    best_impl [] = none ∧
    get_quality_number "720p" = some 7 ∧
    get_quality_number "1080p" = some 1 ∧
    get_quality_number "480p" = some 4 := by
  refine ⟨by decide, by decide, rfl, by decide, by decide, by decide⟩

/-- C7 (code bug): the unhandled-iframe suppression is inverted.
`is_ignored_iframe` returns `True` when NO ignore-list entry matches
(in particular for the empty ignore list), and `False` when one does, and
`scrape_page` logs only when it returns `False` — so with an empty ignore
list a fresh unhandled iframe is never logged, while an identifier
matching the ignore list IS logged (once). -/
theorem unhandled_iframe_logging_inverted :
    is_ignored_iframe [] "abc" = true ∧
    iframe_log_step [] ⟨[], []⟩ "abc" "<iframe id=abc></iframe>"
        = ⟨[], []⟩ ∧
    is_ignored_iframe [⟨"abc-player", "video"⟩] "abc" = false ∧
    iframe_log_step [⟨"abc-player", "video"⟩] ⟨[], []⟩ "abc"
        "<iframe id=abc></iframe>"
        = ⟨["abc"], ["<iframe id=abc></iframe>"]⟩ ∧
    iframe_log_step [⟨"abc-player", "video"⟩] ⟨["abc"], ["x"]⟩ "abc"
        "<iframe id=abc></iframe>"
        = ⟨["abc"], ["x"]⟩ := by
  refine ⟨by decide, by decide, by decide, by decide, by decide⟩

/-! ## The resume-consistency invariant (C2) -/

theorem storePut_same (c : String → List String) (b : String)
    (l : List String) : storePut c b l b = l := by
  simp [storePut]

theorem storePut_other (c : String → List String) {b b' : String}
    (l : List String) (hb : b' ≠ b) : storePut c b l b' = c b' := by
  simp [storePut, hb]

theorem crawlInv_add_to_queue (u b : String) {st : CrawlState}
    (h : CrawlInv st) : CrawlInv (add_to_queue u b st) := by
  by_cases hc : get_url_without_fragment u ∈ st.completedCache b
  · rw [add_to_queue_of_completed hc]; exact h
  · rw [add_to_queue_of_not_completed hc]
    intro b'
    obtain ⟨hdisj, hnd⟩ := h b'
    by_cases hb : b' = b
    · subst hb
      refine ⟨fun x hx => ?_, ?_⟩
      · show x ∉ storePut st.queuedCache b'
          (add_queued_list (get_url_without_fragment u)
            (st.queuedCache b')) b'
        rw [storePut_same, mem_add_queued_list_iff]
        rintro (hmem | rfl)
        · exact hdisj x hx hmem
        · exact hc hx
      · show (storePut st.queuedCache b'
          (add_queued_list (get_url_without_fragment u)
            (st.queuedCache b')) b').Nodup
        rw [storePut_same]
        exact nodup_add_queued_list _ hnd
    · refine ⟨fun x hx => ?_, ?_⟩
      · show x ∉ storePut st.queuedCache b _ b'
        rw [storePut_other _ _ hb]
        exact hdisj x hx
      · show (storePut st.queuedCache b _ b').Nodup
        rw [storePut_other _ _ hb]
        exact hnd

theorem crawlInv_add_list_to_queue (links : List String) (b : String) :
    ∀ {st : CrawlState}, CrawlInv st →
      CrawlInv (links.foldl (fun s l => add_to_queue l b s) st) := by
  induction links with
  | nil => intro st h; exact h
  | cons l links ih =>
      intro st h
      exact ih (crawlInv_add_to_queue l b h)

theorem remove_queued_url_queued (u b b' : String) (st : CrawlState) :
    (remove_queued_url u b st).queuedCache b'
      = if b' = b then
          (if u ∈ st.queuedCache b then (st.queuedCache b).erase u
           else st.queuedCache b)
        else st.queuedCache b' := by
  by_cases hb : b' = b
  · subst hb; simp [remove_queued_url, storePut]
  · simp [remove_queued_url, storePut, hb]

theorem crawlInv_remove_queued (u b : String) {st : CrawlState}
    (h : CrawlInv st) : CrawlInv (remove_queued_url u b st) := by
  intro b'
  obtain ⟨hdisj, hnd⟩ := h b'
  rw [show (remove_queued_url u b st).completedCache = st.completedCache
    from rfl, remove_queued_url_queued]
  by_cases hb : b' = b
  · subst hb
    by_cases hm : u ∈ st.queuedCache b'
    · simp only [if_pos rfl, if_pos hm]
      exact ⟨fun x hx hmem => hdisj x hx (List.mem_of_mem_erase hmem),
        hnd.erase u⟩
    · simpa [hm] using ⟨hdisj, hnd⟩
  · simpa [hb] using ⟨hdisj, hnd⟩

theorem not_mem_remove_queued (u b : String) {st : CrawlState}
    (h : CrawlInv st) : u ∉ (remove_queued_url u b st).queuedCache b := by
  obtain ⟨_, hnd⟩ := h b
  rw [remove_queued_url_queued]
  simp only [if_pos rfl]
  by_cases hm : u ∈ st.queuedCache b
  · simp only [if_pos hm]
    exact fun hmem => ((List.Nodup.mem_erase_iff hnd).mp hmem).1 rfl
  · rw [if_neg hm]; exact hm

theorem crawlInv_add_completed (u b : String) {st : CrawlState}
    (h : CrawlInv st) (hu : u ∉ st.queuedCache b) :
    CrawlInv (add_completed_url_to_cache u b st) := by
  intro b'
  obtain ⟨hdisj, hnd⟩ := h b'
  have hqueued : (add_completed_url_to_cache u b st).queuedCache
      = st.queuedCache := rfl
  refine ⟨fun x hx => ?_, by rw [hqueued]; exact hnd⟩
  rw [hqueued]
  by_cases hb : b' = b
  · subst hb
    have hcompleted : (add_completed_url_to_cache u b' st).completedCache b'
        = (if u ∈ st.completedCache b' then st.completedCache b'
           else st.completedCache b' ++ [u]) := by
      show storePut st.completedCache b' _ b' = _
      rw [storePut_same]
    rw [hcompleted] at hx
    by_cases hm : u ∈ st.completedCache b'
    · rw [if_pos hm] at hx
      exact hdisj x hx
    · rw [if_neg hm, List.mem_append, List.mem_singleton] at hx
      rcases hx with hx | rfl
      · exact hdisj x hx
      · exact hu
  · have hcompleted : (add_completed_url_to_cache u b st).completedCache b'
        = st.completedCache b' := by
      show storePut st.completedCache b _ b' = _
      rw [storePut_other _ _ hb]
    rw [hcompleted] at hx
    exact hdisj x hx

theorem crawlInv_finishedPage (u : String) (links : List String)
    (b : String) {st : CrawlState} (h : CrawlInv st) :
    CrawlInv (finishedPage u links b st) := by
  refine crawlInv_add_list_to_queue links b ?_
  exact crawlInv_add_completed u b (crawlInv_remove_queued u b h)
    (not_mem_remove_queued u b h)

theorem crawlInv_applyCrawlOp (b : String) (op : CrawlOp)
    {st : CrawlState} (h : CrawlInv st) :
    CrawlInv (applyCrawlOp b st op) := by
  cases op with
  | add u => exact crawlInv_add_to_queue u b h
  | page u links => exact crawlInv_finishedPage u links b h
  | resume => exact h

theorem crawlInv_applyCrawlOps (b : String) (ops : List CrawlOp) :
    ∀ {st : CrawlState}, CrawlInv st →
      CrawlInv (applyCrawlOps b ops st) := by
  induction ops with
  | nil => intro st h; exact h
  | cons op ops ih =>
      intro st h
      exact ih (crawlInv_applyCrawlOp b op h)

/-- C2: for every interleaving of the crawl-loop operations
(`add_to_queue`, dequeue + `remove_queued_url` + `scrape_page` +
`add_completed_url_to_cache` in the code's order, and the resume step),
starting from any state satisfying the disjointness/no-duplicates
invariant, the completed-URL store and the queued-URL store of every base
domain remain disjoint — a URL leaves the queued store before processing
and enters the completed store only afterwards. -/
theorem crawl_completed_queued_disjoint (b : String) (ops : List CrawlOp)
    (st : CrawlState) (hst : CrawlInv st) :
    ∀ b' x, x ∈ (applyCrawlOps b ops st).completedCache b' →
      x ∉ (applyCrawlOps b ops st).queuedCache b' := by
  intro b' x hx
  exact ((crawlInv_applyCrawlOps b ops hst) b').1 x hx

/-- Witness for C2: seed `"a#f"`, then finish page `"a"` discovering
`"b"` — afterwards the completed URL `"a"` is not in the queued store. -/
theorem crawl_completed_queued_disjoint_witness :
    "a" ∉ (applyCrawlOps "base" [CrawlOp.add "a#f", CrawlOp.page "a" ["b"]]
        initialCrawlState).queuedCache "base" :=
  crawl_completed_queued_disjoint "base"
    [CrawlOp.add "a#f", CrawlOp.page "a" ["b"]] initialCrawlState
    (fun _ => ⟨by simp [initialCrawlState], by simp [initialCrawlState]⟩)
    "base" "a" (by decide)

/-! ## Skip-substring asymmetry (C8) -/

theorem link_discovery_mem (skip : List String) (hrefs : List String) :
    ∀ (acc : List String × List String) (h : String),
      (h ∈ (hrefs.foldl (link_discovery_step skip) acc).1 ↔
        h ∈ acc.1 ∨ h ∈ hrefs) ∧
      (h ∈ (hrefs.foldl (link_discovery_step skip) acc).2 ↔
        h ∈ acc.2 ∨ (h ∈ hrefs ∧ any_list_in_str h skip = false)) := by
  induction hrefs with
  | nil => intro acc h; simp
  | cons x xs ih =>
      intro acc h
      have hstep : (x :: xs).foldl (link_discovery_step skip) acc
          = xs.foldl (link_discovery_step skip)
              (link_discovery_step skip acc x) := rfl
      rw [hstep]
      obtain ⟨ih1, ih2⟩ := ih (link_discovery_step skip acc x) h
      constructor
      · rw [ih1]
        have hmem : h ∈ (link_discovery_step skip acc x).1 ↔
            h ∈ acc.1 ∨ h = x := by
          by_cases hx : x ∈ acc.1
          · simp only [link_discovery_step, if_pos hx]
            exact ⟨fun hy => Or.inl hy,
              fun hy => hy.elim id (fun e => e ▸ hx)⟩
          · simp [link_discovery_step, if_neg hx]
        rw [hmem]
        simp only [List.mem_cons]
        tauto
      · rw [ih2]
        have hmem : h ∈ (link_discovery_step skip acc x).2 ↔
            h ∈ acc.2 ∨ (h = x ∧ any_list_in_str h skip = false) := by
          by_cases hx : x ∉ acc.2 ∧ ¬ any_list_in_str x skip
          · simp only [link_discovery_step, if_pos hx, List.mem_append,
              List.mem_singleton]
            constructor
            · rintro (hy | rfl)
              · exact Or.inl hy
              · exact Or.inr ⟨rfl, by simpa using hx.2⟩
            · rintro (hy | ⟨rfl, _⟩)
              · exact Or.inl hy
              · exact Or.inr rfl
          · simp only [link_discovery_step, if_neg hx]
            rw [not_and_or] at hx
            constructor
            · exact fun hy => Or.inl hy
            · rintro (hy | ⟨rfl, hskip⟩)
              · exact hy
              · rcases hx with hx | hx
                · simpa using hx
                · exact absurd hskip (by simpa using hx)
        rw [hmem]
        simp only [List.mem_cons]
        tauto

/-- C8: an in-domain HTML link discovered during link discovery always
enters `relative_links` (and therefore always produces URL-substitution
jobs for the rewrite step), while it enters `a_hrefs` — the only list fed
to `add_to_queue` — exactly when no configured skip substring occurs in
it: the skip list gates crawl-following only, never HTML rewriting. -/
theorem skip_list_gates_crawl_following_only (skip hrefs : List String)
    (h : String) (hmem : h ∈ hrefs) :
    h ∈ (link_discovery skip hrefs).1 ∧
    (∀ fn sd : String → String,
      ∃ job ∈ relative_link_jobs fn sd (link_discovery skip hrefs).1,
        job.url = h) ∧
    (any_list_in_str h skip = true →
      h ∉ (link_discovery skip hrefs).2) ∧
    (any_list_in_str h skip = false →
      h ∈ (link_discovery skip hrefs).2) := by
  obtain ⟨h1, h2⟩ := link_discovery_mem skip hrefs ([], []) h
  have hrel : h ∈ (link_discovery skip hrefs).1 := by
    rw [link_discovery, h1]; exact Or.inr hmem
  refine ⟨hrel, fun fn sd => ?_, fun hskip hin => ?_, fun hskip => ?_⟩
  · refine ⟨{ file_path := fn h, url := h }, ?_, rfl⟩
    rw [relative_link_jobs, List.mem_flatMap]
    exact ⟨h, hrel, by simp⟩
  · rw [link_discovery, h2] at hin
    rcases hin with hin | hin
    · simp at hin
    · rw [hskip] at hin
      exact absurd hin.2 (by simp)
  · rw [link_discovery, h2]
    exact Or.inr ⟨hmem, hskip⟩

/-- Witness for C8, the spec's own scenario: skip list `["/private/"]`,
links `/a` and `/private/b` — `/a` is in both lists, `/private/b` only in
`relative_links`, and both get a substitution job. -/
theorem skip_list_gates_crawl_following_only_witness :
    "https://example.com/a" ∈
      (link_discovery ["/private/"]
        ["https://example.com/a", "https://example.com/private/b"]).2 ∧
    "https://example.com/private/b" ∉
      (link_discovery ["/private/"]
        ["https://example.com/a", "https://example.com/private/b"]).2 ∧
    "https://example.com/private/b" ∈
      (link_discovery ["/private/"]
        ["https://example.com/a", "https://example.com/private/b"]).1 ∧
    (∃ job ∈ relative_link_jobs id id
        (link_discovery ["/private/"]
          ["https://example.com/a", "https://example.com/private/b"]).1,
      job.url = "https://example.com/private/b") := by
  have ha := skip_list_gates_crawl_following_only ["/private/"]
    ["https://example.com/a", "https://example.com/private/b"]
    "https://example.com/a" (by decide)
  have hb := skip_list_gates_crawl_following_only ["/private/"]
    ["https://example.com/a", "https://example.com/private/b"]
    "https://example.com/private/b" (by decide)
  exact ⟨ha.2.2.2 (by decide), hb.2.2.1 (by decide), hb.1, hb.2.1 id id⟩

/-! ## Download-cache idempotence (C4) -/

theorem download_file_of_cached {transport : String → Option TransportResp}
    {name_of : String → String} {ignored : List String} {url : String}
    {st : DlState} {df : DownloadedFile} (h : st.cache url = some df) :
    download_file transport name_of ignored url st = (df, st) := by
  simp [download_file, h]

theorem download_file_fetched_eq
    (transport : String → Option TransportResp) (name_of : String → String)
    (ignored : List String) (url u old : String) (ct : Option String)
    (st : DlState) (hc : st.cache url = none)
    (himpl : download_file_impl transport url st
      = (some (ImplResult.fetched u old ct),
         { st with net_calls := st.net_calls + 1 })) :
    download_file transport name_of ignored url st
      = if u.isEmpty then
          (⟨"", url, none, DownloadedFileResult.FAIL⟩,
           { cache := cache_put st.cache [url]
               ⟨"", url, none, DownloadedFileResult.FAIL⟩,
             net_calls := st.net_calls + 1 })
        else if ignorable_content_type ignored ct then
          (⟨"", u, none, DownloadedFileResult.SKIPPED⟩,
           { cache := cache_put st.cache [u]
               ⟨"", u, none, DownloadedFileResult.SKIPPED⟩,
             net_calls := st.net_calls + 1 })
        else
          (⟨name_of u, u, ct, DownloadedFileResult.SUCCESS⟩,
           { cache := cache_put st.cache [u, old]
               ⟨name_of u, u, ct, DownloadedFileResult.SUCCESS⟩,
             net_calls := st.net_calls + 1 }) := by
  simp only [download_file, hc, himpl]

/-- After one `download_file` call, the returned entry is in the cache
under the requested URL, or — only on the redirect shortcuts — under the
transport's final URL while the requested URL stays uncached. -/
theorem download_file_post (transport : String → Option TransportResp)
    (name_of : String → String) (ignored : List String) (url : String)
    (st : DlState) :
    (download_file transport name_of ignored url st).2.cache url
        = some (download_file transport name_of ignored url st).1 ∨
    ((download_file transport name_of ignored url st).2.cache url = none ∧
      ∃ resp, transport url = some resp ∧
        (download_file transport name_of ignored url st).2.cache
            resp.final_url
          = some (download_file transport name_of ignored url st).1) := by
  rcases hc : st.cache url with _ | df
  · rcases ht : transport url with _ | resp
    · left
      simp [download_file, download_file_impl, hc, ht, cache_put]
    · rcases hf : st.cache resp.final_url with _ | df
      · have himpl : download_file_impl transport url st
            = (some (ImplResult.fetched resp.final_url
                (if url = resp.final_url then "" else url)
                resp.content_type),
               { st with net_calls := st.net_calls + 1 }) := by
          by_cases hr : url = resp.final_url
          · subst hr
            simp [download_file_impl, ht, hf]
          · simp [download_file_impl, ht, hf, hr]
        rw [download_file_fetched_eq transport name_of ignored url
          resp.final_url (if url = resp.final_url then "" else url)
          resp.content_type st hc himpl]
        by_cases hu : resp.final_url.isEmpty = true
        · left
          rw [if_pos hu]
          simp [cache_put]
        · rw [if_neg hu]
          by_cases hI : ignorable_content_type ignored resp.content_type
              = true
          · rw [if_pos hI]
            by_cases hr : url = resp.final_url
            · left
              simp [cache_put, hr]
            · right
              refine ⟨?_, resp, rfl, ?_⟩
              · simp [cache_put, hr, hc]
              · simp [cache_put]
          · rw [if_neg hI]
            left
            by_cases hr : url = resp.final_url
            · simp [cache_put, hr]
            · simp [cache_put, hr]
      · right
        constructor
        · simp [download_file, download_file_impl, hc, ht, hf]
        · exact ⟨resp, rfl, by simp [download_file, download_file_impl,
            hc, ht, hf]⟩
  · left
    simp [download_file, hc]

/-- C4 as corrected: with caching enabled, the second `download_file`
call for the same URL always returns a `DownloadedFile` identical to the
first call's; it performs no network access when the first call left the
requested URL as a cache key, and otherwise (the first call came back
through the final-URL redirect shortcut: a SKIPPED result after a
redirect, or a hit on an entry stored under a different original URL)
it opens exactly one more connection and then returns the cached entry
stored under the final URL. -/
theorem download_file_cache_idempotent
    (transport : String → Option TransportResp) (name_of : String → String)
    (ignored : List String) (url : String) (st : DlState) :
    ((download_file transport name_of ignored url
        (download_file transport name_of ignored url st).2).1
      = (download_file transport name_of ignored url st).1) ∧
    (((download_file transport name_of ignored url st).2.cache
        url).isSome →
      download_file transport name_of ignored url
          (download_file transport name_of ignored url st).2
        = download_file transport name_of ignored url st) ∧
    ((download_file transport name_of ignored url st).2.cache url = none →
      (download_file transport name_of ignored url
          (download_file transport name_of ignored url st).2).2.net_calls
        = (download_file transport name_of ignored url st).2.net_calls
            + 1) := by
  rcases download_file_post transport name_of ignored url st with h | ⟨h, resp, ht, hf⟩
  · have hsecond := @download_file_of_cached transport name_of ignored
      url _ _ h
    refine ⟨?_, fun _ => ?_, fun hnone => ?_⟩
    · rw [hsecond]
    · exact hsecond.trans rfl
    · rw [h] at hnone
      exact absurd hnone (by simp)
  · rcases hE : download_file transport name_of ignored url st with ⟨df1, st1⟩
    rw [hE] at h hf
    dsimp only at h hf ⊢
    have hsecond : download_file transport name_of ignored url st1
        = (df1, { st1 with net_calls := st1.net_calls + 1 }) := by
      simp [download_file, download_file_impl, h, ht, hf]
    refine ⟨?_, fun hsome => ?_, fun _ => ?_⟩
    · rw [hsecond]
    · rw [h] at hsome
      exact absurd hsome (by simp)
    · rw [hsecond]

/-- C4 counterexample: with caching enabled, when the first call for
`"u"` is redirected to `"f"` and skipped for its ignored `text/html`
content type, the entry is cached under `"f"` only, so the second call
for `"u"` opens the connection again (`net_calls` goes from 1 to 2) —
refuting "the second call performs no network access" — even though it
still returns the identical `DownloadedFile`. -/
theorem download_file_second_call_opens_connection :
    (download_file tHtmlRedirect id ["text/html"] "u" dlInit).2.net_calls
        = 1 ∧
    (download_file tHtmlRedirect id ["text/html"] "u"
        (download_file tHtmlRedirect id ["text/html"] "u"
          dlInit).2).2.net_calls = 2 ∧
    (download_file tHtmlRedirect id ["text/html"] "u"
        (download_file tHtmlRedirect id ["text/html"] "u" dlInit).2).1
      = (download_file tHtmlRedirect id ["text/html"] "u" dlInit).1 :=
  ⟨by decide, by decide, by decide⟩

/-- Witness for the corrected C4 at the counterexample's transport: the
second call returns the identical entry, and since the requested URL was
left uncached it performs exactly one more transport call. -/
theorem download_file_cache_idempotent_witness :
    ((download_file tHtmlRedirect id ["text/html"] "u"
        (download_file tHtmlRedirect id ["text/html"] "u" dlInit).2).1
      = (download_file tHtmlRedirect id ["text/html"] "u" dlInit).1) ∧
    ((download_file tHtmlRedirect id ["text/html"] "u"
        (download_file tHtmlRedirect id ["text/html"] "u"
          dlInit).2).2.net_calls
      = (download_file tHtmlRedirect id ["text/html"] "u"
          dlInit).2.net_calls + 1) :=
  ⟨(download_file_cache_idempotent tHtmlRedirect id ["text/html"] "u"
      dlInit).1,
   (download_file_cache_idempotent tHtmlRedirect id ["text/html"] "u"
      dlInit).2.2 (by decide)⟩

end WebsiteRipper
